import Mathlib

/-!
# Verification of the dataload-rs batch-coalescing loader worker

A shallow embedding of the core of `dataload-rs`:

* `src/cache.rs`     — the `Cache` trait with its `HashMap` instance, modelled as a
  partial function `K → Option V` (the `HashMap` semantics: `insert` overwrites,
  `get` is pointwise lookup, bulk operations iterate in order).
* `src/loader_op.rs` — `LoaderOp`, `LoadRequest` and `LoadRequest::send_response`.
  Reply channels are modelled by recording the value that is sent on them.
* `src/loader_worker.rs` — `LoaderWorker::mux_op`, `LoaderWorker::execute_load`
  and the frame structure of `LoaderWorker::start`.
* `src/worker_stats.rs` — `WorkerStats` with its recording functions; `u32`
  counters become `Nat` with explicit `% 2^32` where an addition may wrap, and
  the `f32` running average is out of scope of the statements below.

The worker is deterministic once the sequence of operations drained in each
execution frame is fixed, so a frame is embedded as a function from the worker
state and the drained operation list to the successor state together with a
trace of everything observable: replies sent during the drain (the fast path),
the key slice passed to the batch function (if it was invoked), and the replies
sent after the batch function returned.  The batch function itself is an
external collaborator and enters as an ordinary function argument
`F : List K → List (K × V)` (the context is fixed for the worker's lifetime and
is absorbed into `F`).

Rust's `Vec::sort` is a stable comparison sort; over a `LinearOrder` key type
antisymmetry makes every comparison sort produce the same list, so it is
embedded as `List.insertionSort (· ≤ ·)`.  `Vec::dedup` removes consecutive
equal elements only, embedded by the structurally recursive `dedupAdjacent`.
-/

/-- `Vec::dedup`: remove consecutive repeated elements, keeping the first of
each run. -/
def dedupAdjacent {K : Type} [DecidableEq K] : List K → List K
  | [] => []
  | [a] => [a]
  | a :: b :: rest =>
      if a = b then dedupAdjacent (b :: rest) else a :: dedupAdjacent (b :: rest)

namespace Dataload

/-- `Cache` (src/cache.rs): the `HashMap<K, V>` instance of the `Cache` trait,
modelled extensionally as a partial function from keys to values. -/
def Cache (K V : Type) : Type := K → Option V

namespace Cache

variable {K V : Type} [DecidableEq K]

/-- The empty cache (`HashMap::new`). -/
def empty : Cache K V := fun _ => none

/-- `Cache::get` (src/cache.rs:32-34): values for the requested keys, in input
order. -/
def get (c : Cache K V) (keys : List K) : List (Option V) :=
  keys.map c

/-- `Cache::get_key_vals` (src/cache.rs:36-41): key/value pairs for the
requested keys, in input order. -/
def getKeyVals (c : Cache K V) (keys : List K) : List (K × Option V) :=
  keys.map (fun k => (k, c k))

/-- `Cache::insert` (src/cache.rs:43-45): `HashMap::insert`, overwriting any
previous value for the key. -/
def insert (c : Cache K V) (key : K) (value : V) : Cache K V :=
  fun k => if k = key then some value else c k

/-- `Cache::insert_many` (src/cache.rs:47-51): insert each pair in iteration
order (a later pair with the same key overwrites an earlier one). -/
def insertMany (c : Cache K V) (keyVals : List (K × V)) : Cache K V :=
  keyVals.foldl (fun acc kv => acc.insert kv.1 kv.2) c

/-- `Cache::remove` (src/cache.rs:53-57): remove every listed key. -/
def remove (c : Cache K V) (keys : List K) : Cache K V :=
  fun k => if k ∈ keys then none else c k

/-- `Cache::flush` (src/cache.rs:59-61): `HashMap::clear`. -/
def flush (_ : Cache K V) : Cache K V := fun _ => none

end Cache

/-- `LoadRequest` (src/loader_op.rs:22-25) without its oneshot sender halves:
`One(key, tx)` / `Many(keys, tx)`. -/
inductive LoadRequest (K : Type) : Type
  | one (key : K)
  | many (keys : List K)
deriving DecidableEq, Repr

/-- `LoadRequest::keys` (src/loader_op.rs:31-36). -/
def LoadRequest.keys {K : Type} : LoadRequest K → List K
  | .one key => [key]
  | .many keys => keys

/-- The value sent on a `LoadRequest`'s oneshot reply channel: `Option<V>` for
`One`, `Vec<Option<V>>` for `Many`. -/
inductive Reply (V : Type) : Type
  | one (value : Option V)
  | many (values : List (Option V))
deriving DecidableEq, Repr

/-- `LoadRequest::send_response` (src/loader_op.rs:38-57): a `One` request
sends the first value of the iterator, flattened; a `Many` request sends the
whole (cloned) list. -/
def LoadRequest.sendResponse {K V : Type} : LoadRequest K → List (Option V) → Reply V
  | .one _, values => .one values.head?.join
  | .many _, values => .many values

/-- `LoaderOp` (src/loader_op.rs:10-19). -/
inductive LoaderOp (K V : Type) : Type
  | load (request : LoadRequest K)
  | prime (key : K) (value : V)
  | primeMany (keyVals : List (K × V))
  | clear (key : K)
  | clearMany (keys : List K)

/-- The mutable state of `LoaderWorker` (src/loader_worker.rs:50-53) that the
claims range over: the cache and the two per-frame accumulators.  `request_rx`,
`context` and the phantom/debug fields carry no per-frame state. -/
structure WorkerState (K V : Type) : Type where
  cache : Cache K V
  keysToLoad : List K
  pendingRequests : List (LoadRequest K)

/-- The initial worker state (`LoaderWorker::new`, src/loader_worker.rs:67-81):
empty accumulators around the given cache. -/
def WorkerState.init {K V : Type} (cache : Cache K V) : WorkerState K V :=
  { cache := cache, keysToLoad := [], pendingRequests := [] }

variable {K V : Type}

/-- The local `keys_to_load` of `LoaderWorker::mux_op`
(src/loader_worker.rs:110-114): the keys of the request that miss the cache at
the moment the request is drained, in request order. -/
def missKeys [DecidableEq K] (c : Cache K V) (request : LoadRequest K) : List K :=
  (c.getKeyVals request.keys).filterMap
    (fun kv => if kv.2.isNone then some kv.1 else none)

/-- `LoaderWorker::mux_op` (src/loader_worker.rs:107-129).  Returns the updated
state and, when the drained operation was a fully-cache-hit `Load`, the reply
sent immediately on that request's channel. -/
def muxOp [DecidableEq K] (s : WorkerState K V) (op : LoaderOp K V) :
    WorkerState K V × Option (LoadRequest K × Reply V) :=
  match op with
  | .load request =>
      let keysToLoad := missKeys s.cache request
      if keysToLoad.isEmpty then
        (s, some (request, request.sendResponse
          ((s.cache.getKeyVals request.keys).map (fun kv => kv.2))))
      else
        ({ s with
            keysToLoad := s.keysToLoad ++ keysToLoad,
            pendingRequests := s.pendingRequests ++ [request] }, none)
  | .prime key value => ({ s with cache := s.cache.insert key value }, none)
  | .primeMany keyVals => ({ s with cache := s.cache.insertMany keyVals }, none)
  | .clear key => ({ s with cache := s.cache.remove [key] }, none)
  | .clearMany keys => ({ s with cache := s.cache.remove keys }, none)

/-- Phase 2 of a frame (the drain loop of `LoaderWorker::start`,
src/loader_worker.rs:89-99): process the drained operations in order through
`mux_op`.  Returns the state after the drain, the replies sent on the fast
path in the order they were sent, and a ghost trace pairing each request that
was deferred to `pending_request` with its cache misses at its drain point
(the list `mux_op` appends to `keys_to_load`); the trace adds no behaviour. -/
def drain [DecidableEq K] (s : WorkerState K V) :
    List (LoaderOp K V) →
    WorkerState K V × List (LoadRequest K × Reply V) × List (LoadRequest K × List K)
  | [] => (s, [], [])
  | op :: rest =>
      let step := muxOp s op
      let deferred : List (LoadRequest K × List K) :=
        match op with
        | .load request =>
            if (missKeys s.cache request).isEmpty then []
            else [(request, missKeys s.cache request)]
        | _ => []
      let next := drain step.1 rest
      (next.1, step.2.toList ++ next.2.1, deferred ++ next.2.2)

/-- The key slice handed to the batch function: `keys_to_load` after the
in-place `sort()` and adjacent `dedup()` of `execute_load`
(src/loader_worker.rs:133-134). -/
def batchSlice [LinearOrder K] (keysToLoad : List K) : List K :=
  dedupAdjacent (List.insertionSort (· ≤ ·) keysToLoad)

/-- `LoaderWorker::execute_load` (src/loader_worker.rs:132-143): sort and
adjacent-deduplicate `keys_to_load`, call the batch function, insert every
returned pair into the cache, then drain `pending_request`, replying to each
request from the post-insertion cache.  Note that the source sorts and
deduplicates `keys_to_load` in place and never empties it, while
`pending_request.drain(..)` does empty `pending_request`.  Returns the new
state, the key slice passed to the batch function, and the replies in the
order they were sent. -/
def executeLoad [LinearOrder K] (F : List K → List (K × V)) (s : WorkerState K V) :
    WorkerState K V × List K × List (LoadRequest K × Reply V) :=
  let keys := batchSlice s.keysToLoad
  let loadedKeyVals := F keys
  let cache2 := s.cache.insertMany loadedKeyVals
  (⟨cache2, keys, []⟩,
   keys,
   s.pendingRequests.map
     (fun request => (request, request.sendResponse (cache2.get request.keys))))

/-- Everything observable about one execution frame. -/
structure FrameResult (K V : Type) : Type where
  /-- The worker state when the frame ends. -/
  state : WorkerState K V
  /-- Replies sent during the drain (fast path), in order. -/
  fastReplies : List (LoadRequest K × Reply V)
  /-- Ghost trace: each request deferred to `pending_request` in this frame,
  with its cache misses at its drain point. -/
  deferred : List (LoadRequest K × List K)
  /-- The key slices the batch function was invoked with in this frame, in
  order of invocation. -/
  batchCalls : List (List K)
  /-- Replies sent after the batch function returned, in order. -/
  batchReplies : List (LoadRequest K × Reply V)

/-- One iteration of the loop in `LoaderWorker::start`
(src/loader_worker.rs:87-103): drain the listed operations (phase 2), then, if
`pending_request` is non-empty, run `execute_load` (phase 3). -/
def runFrame [LinearOrder K] (F : List K → List (K × V)) (s : WorkerState K V)
    (ops : List (LoaderOp K V)) : FrameResult K V :=
  let drained := drain s ops
  if drained.1.pendingRequests.isEmpty then
    { state := drained.1, fastReplies := drained.2.1, deferred := drained.2.2,
      batchCalls := [], batchReplies := [] }
  else
    let executed := executeLoad F drained.1
    { state := executed.1, fastReplies := drained.2.1, deferred := drained.2.2,
      batchCalls := [executed.2.1], batchReplies := executed.2.2 }

/-- Consecutive execution frames: each frame starts from the state the
previous frame ended in. -/
def runFrames [LinearOrder K] (F : List K → List (K × V)) (s : WorkerState K V) :
    List (List (LoaderOp K V)) → WorkerState K V × List (FrameResult K V)
  | [] => (s, [])
  | ops :: rest =>
      let frame := runFrame F s ops
      let next := runFrames F frame.state rest
      (next.1, frame :: next.2)

/-- The modulus of `u32` arithmetic. -/
def U32_MOD : Nat := 2 ^ 32

/-- `WorkerStats` (src/worker_stats.rs:1-26).  The `u32` counters become `Nat`
(additions that may wrap take an explicit `% U32_MOD`); the `tag` label and the
`f32` field `average_batch_size` play no part in the statements below and are
omitted from the state. -/
structure WorkerStats : Type where
  load_requests : Nat
  items_requested : Nat
  cache_hits : Nat
  loads : Nat
  max_batch_size : Nat
  min_batch_size : Nat
  max_batch_unique : Nat
  min_batch_unique : Nat
  items_loaded : Nat
deriving DecidableEq, Repr

/-- `WorkerStats::new` (src/worker_stats.rs:29-31): all fields take their
`Default` value `0`, then `min_batch_size` is set to `u32::max_value()`.  In
particular `min_batch_unique` starts at `0`. -/
def WorkerStats.new : WorkerStats :=
  { load_requests := 0, items_requested := 0, cache_hits := 0, loads := 0,
    max_batch_size := 0, min_batch_size := U32_MOD - 1,
    max_batch_unique := 0, min_batch_unique := 0, items_loaded := 0 }

/-- `WorkerStats::record_load_request` (src/worker_stats.rs:33-36). -/
def WorkerStats.record_load_request (s : WorkerStats) (items_requested : Nat) :
    WorkerStats :=
  { s with
      load_requests := (s.load_requests + 1) % U32_MOD,
      items_requested := (s.items_requested + items_requested) % U32_MOD }

/-- `WorkerStats::record_cache_hits` (src/worker_stats.rs:38-40). -/
def WorkerStats.record_cache_hits (s : WorkerStats) (hits : Nat) : WorkerStats :=
  { s with cache_hits := (s.cache_hits + hits) % U32_MOD }

/-- `WorkerStats::record_load_exec_completed` (src/worker_stats.rs:56-65),
exactly as written in the source: the guards compare against
`max_batch_unique` / `min_batch_unique`, but the assignments write
`max_batch_size` / `min_batch_size`. -/
def WorkerStats.record_load_exec_completed (s : WorkerStats)
    (unique_batch_size loaded_item_count : Nat) : WorkerStats :=
  let s1 := { s with items_loaded := (s.items_loaded + loaded_item_count) % U32_MOD }
  let s2 :=
    if unique_batch_size > s1.max_batch_unique then
      { s1 with max_batch_size := unique_batch_size }
    else s1
  if unique_batch_size < s2.min_batch_unique then
    { s2 with min_batch_size := unique_batch_size }
  else s2

/-- A concrete batch function over `ℕ` keys and values used to evaluate the
worker on closed inputs: it returns the pair `(k, k)` for every requested
key. -/
def natCopyBatch : List Nat → List (Nat × Nat) :=
  fun keys => keys.map (fun k => (k, k))

/-- The worker state at startup over `ℕ` keys and values: an empty cache and
empty accumulators. -/
def natInitState : WorkerState Nat Nat :=
  WorkerState.init Cache.empty

/-- Inserting a key and then looking it up yields the inserted value. -/
theorem insert_apply_self {K V : Type} [DecidableEq K] (c : Cache K V) (k : K) (v : V) :
    c.insert k v k = some v := by
  simp [Cache.insert]

/-- Bulk insertion never makes a populated key unpopulated. -/
theorem insertMany_isSome_mono {K V : Type} [DecidableEq K] (l : List (K × V)) :
    ∀ (c : Cache K V) (k : K), (c k).isSome → ((c.insertMany l) k).isSome := by
  induction l with
  | nil => intro c k h; simpa [Cache.insertMany] using h
  | cons a rest ih =>
      intro c k h
      have hstep : ((c.insert a.1 a.2) k).isSome := by
        by_cases hk : k = a.1 <;> simp [Cache.insert, hk, h]
      simpa [Cache.insertMany] using ih (c.insert a.1 a.2) k hstep

/-- Every key of a bulk-inserted pair is populated afterwards. -/
theorem insertMany_isSome_of_mem {K V : Type} [DecidableEq K] (l : List (K × V)) :
    ∀ (c : Cache K V) (kv : K × V), kv ∈ l → ((c.insertMany l) kv.1).isSome := by
  induction l with
  | nil => intro c kv h; simp at h
  | cons a rest ih =>
      intro c kv h
      rcases List.mem_cons.1 h with h | h
      · subst h
        simpa [Cache.insertMany] using
          insertMany_isSome_mono rest (c.insert kv.1 kv.2) kv.1 (by simp [Cache.insert])
      · simpa [Cache.insertMany] using ih (c.insert a.1 a.2) kv h

/-- Bulk insertion leaves keys it does not mention untouched. -/
theorem insertMany_apply_of_not_mem {K V : Type} [DecidableEq K] (l : List (K × V)) :
    ∀ (c : Cache K V) (k : K), k ∉ l.map Prod.fst → (c.insertMany l) k = c k := by
  induction l with
  | nil => intro c k _; rfl
  | cons a rest ih =>
      intro c k h
      simp only [List.map_cons, List.mem_cons, not_or] at h
      have := ih (c.insert a.1 a.2) k h.2
      simpa [Cache.insertMany, Cache.insert, h.1] using this

/-- When the inserted pair list has pairwise distinct keys, each pair's key
maps to exactly that pair's value afterwards. -/
theorem insertMany_apply_of_nodup_mem {K V : Type} [DecidableEq K] (l : List (K × V)) :
    ∀ (c : Cache K V) (kv : K × V), (l.map Prod.fst).Nodup → kv ∈ l →
      (c.insertMany l) kv.1 = some kv.2 := by
  induction l with
  | nil => intro c kv _ h; simp at h
  | cons a rest ih =>
      intro c kv hnd h
      simp only [List.map_cons, List.nodup_cons] at hnd
      rcases List.mem_cons.1 h with h | h
      · subst h
        have := insertMany_apply_of_not_mem rest (c.insert kv.1 kv.2) kv.1 hnd.1
        simpa [Cache.insertMany, insert_apply_self] using this
      · simpa [Cache.insertMany] using ih (c.insert a.1 a.2) kv hnd.2 h

/-- The filter that `mux_op` applies to a request's keys is empty exactly when
every key is populated in the cache. -/
theorem missFilter_eq_nil {K V : Type} [DecidableEq K] (c : Cache K V) :
    ∀ ks : List K,
      (ks.filterMap (fun k => if (c k).isNone then some k else none) = [] ↔
        ∀ k ∈ ks, (c k).isSome) := by
  intro ks
  induction ks with
  | nil => simp
  | cons a rest ih =>
      cases hca : c a with
      | none => simp [List.filterMap_cons, hca]
      | some v => simp [List.filterMap_cons, hca, ih]

/-- `mux_op`'s local `keys_to_load` for a request is empty exactly when every
requested key hits the cache. -/
theorem missKeys_eq_nil_iff {K V : Type} [DecidableEq K] (c : Cache K V)
    (r : LoadRequest K) :
    missKeys c r = [] ↔ ∀ k ∈ r.keys, (c k).isSome := by
  simpa [missKeys, Cache.getKeyVals, List.filterMap_map, Function.comp] using
    missFilter_eq_nil c r.keys

/-- `mux_op` on a fully-cache-hit `Load`: reply immediately, leave the state
alone. -/
theorem muxOp_load_hit {K V : Type} [DecidableEq K] (s : WorkerState K V)
    (r : LoadRequest K) (h : (missKeys s.cache r).isEmpty = true) :
    muxOp s (.load r) =
      (s, some (r, r.sendResponse
        ((s.cache.getKeyVals r.keys).map (fun kv => kv.2)))) := by
  simp [muxOp, h]

/-- `mux_op` on a `Load` with at least one miss: extend `keys_to_load` with
the misses and append the request to `pending_request`. -/
theorem muxOp_load_defer {K V : Type} [DecidableEq K] (s : WorkerState K V)
    (r : LoadRequest K) (h : ¬ (missKeys s.cache r).isEmpty = true) :
    muxOp s (.load r) =
      ({ s with
          keysToLoad := s.keysToLoad ++ missKeys s.cache r,
          pendingRequests := s.pendingRequests ++ [r] }, none) := by
  simp [muxOp, h]

/-- After a drain, `pending_request` is the starting `pending_request`
followed by exactly the requests recorded in the drain's deferred trace, in
order. -/
theorem drain_pending_eq {K V : Type} [DecidableEq K] (ops : List (LoaderOp K V)) :
    ∀ s : WorkerState K V,
      (drain s ops).1.pendingRequests =
        s.pendingRequests ++ ((drain s ops).2.2).map Prod.fst := by
  induction ops with
  | nil => intro s; simp [drain]
  | cons op rest ih =>
      intro s
      cases op with
      | load r =>
          by_cases h : (missKeys s.cache r).isEmpty = true
          · simp [drain, muxOp_load_hit s r h, h, ih]
          · simp [drain, muxOp_load_defer s r h, h, ih]
      | prime k v => simpa [drain, muxOp] using ih _
      | primeMany kvs => simpa [drain, muxOp] using ih _
      | clear k => simpa [drain, muxOp] using ih _
      | clearMany ks => simpa [drain, muxOp] using ih _

/-- Every request deferred during a drain had at least one cache miss at the
moment it was drained: each entry of the deferred trace has a non-empty miss
list. -/
theorem drain_deferred_miss {K V : Type} [DecidableEq K] (ops : List (LoaderOp K V)) :
    ∀ (s : WorkerState K V) (e : LoadRequest K × List K),
      e ∈ (drain s ops).2.2 → e.2 ≠ [] := by
  induction ops with
  | nil => intro s e he; simp [drain] at he
  | cons op rest ih =>
      intro s e he
      cases op with
      | load r =>
          by_cases h : (missKeys s.cache r).isEmpty = true
          · simp [drain, h] at he
            exact ih _ _ he
          · simp [drain, h] at he
            rcases he with he | he
            · subst he
              intro hnil
              apply h
              rw [show missKeys s.cache r = [] from hnil]
              rfl
            · exact ih _ _ he
      | prime k v =>
          simp [drain, muxOp] at he
          exact ih _ _ he
      | primeMany kvs =>
          simp [drain, muxOp] at he
          exact ih _ _ he
      | clear k =>
          simp [drain, muxOp] at he
          exact ih _ _ he
      | clearMany ks =>
          simp [drain, muxOp] at he
          exact ih _ _ he

/-- Claim C1.  A frame that defers the single request `load(42)` to phase 3
ends with `keys_to_load = [42]`, not `[]`: `execute_load` sorts and
deduplicates `keys_to_load` in place but never empties it, while
`pending_request.drain(..)` does empty `pending_request`.  So the claim that
phase 3 clears both accumulators fails on the code: the sorted, deduplicated
key slice of the frame survives into the next frame. -/
theorem execute_load_keys_to_load_not_cleared :
    (runFrame natCopyBatch natInitState [.load (.one 42)]).state.keysToLoad = [42] ∧
    (runFrame natCopyBatch natInitState [.load (.one 42)]).state.pendingRequests = [] ∧
    (runFrame natCopyBatch natInitState [.load (.one 42)]).batchCalls = [[42]] := by
  refine ⟨rfl, rfl, rfl⟩

/-- Claim C2.  Two consecutive frames, the first draining `load(1)` and the
second draining `load(2)`: the miss set of the second frame is `{2}` (its
deferred trace records misses `[2]` only), yet the batch function of the
second frame is invoked with the slice `[1, 2]`, because the key `1` left in
`keys_to_load` by the first frame was never cleared.  The slice is still
sorted and duplicate-free, but it is a strict superset of the union of the
frame's own miss sets. -/
theorem batch_slice_exceeds_frame_misses :
    ((runFrames natCopyBatch natInitState
        [[.load (.one 1)], [.load (.one 2)]]).2.map
      (fun fr => fr.batchCalls)) = [[[1]], [[1, 2]]] ∧
    ((runFrames natCopyBatch natInitState
        [[.load (.one 1)], [.load (.one 2)]]).2.map
      (fun fr => fr.deferred.map (fun e => e.2))) = [[[1]], [[2]]] ∧
    ¬ ([1, 2] : List Nat) ⊆ [2] := by
  refine ⟨rfl, rfl, by decide⟩

/-- Claim C8.  `record_load_exec_completed` as written never updates
`max_batch_unique` or `min_batch_unique`: its guards read the `_unique`
fields but its assignments write `max_batch_size` / `min_batch_size`.  After
reporting a unique batch of size `5`, `max_batch_unique` is still `0` (and
`min_batch_unique` is still `0`), while `max_batch_size` received the value
`5` intended for `max_batch_unique`. -/
theorem record_load_exec_completed_misses_unique_fields :
    (WorkerStats.new.record_load_exec_completed 5 3).max_batch_unique = 0 ∧
    (WorkerStats.new.record_load_exec_completed 5 3).min_batch_unique = 0 ∧
    (WorkerStats.new.record_load_exec_completed 5 3).max_batch_size = 5 ∧
    (WorkerStats.new.record_load_exec_completed 5 3).items_loaded = 3 := by
  refine ⟨rfl, rfl, rfl, rfl⟩

/-- Claim C9.  A `Load(Many([], tx))` operation (what `Loader::load_many`
sends for an empty key list) is answered on the fast path by `mux_op`: the
reply is the empty vector and the worker state is unchanged, so the request
is never appended to `pending_request` and contributes no keys to
`keys_to_load` or to any batch invocation. -/
theorem empty_load_many_fast_path {K V : Type} [DecidableEq K]
    (s : WorkerState K V) :
    muxOp s (.load (.many [])) = (s, some (.many [], Reply.many [])) := rfl

/-- Claim C10.  Priming the same key twice in one drain overwrites the first
value: after `Prime(k, v1)` then `Prime(k, v2)`, a `load(k)` drained next in
the same frame is a full cache hit and is answered `Some(v2)` on the fast
path. -/
theorem prime_prime_load_last_write_wins {K V : Type} [DecidableEq K]
    (s : WorkerState K V) (k : K) (v1 v2 : V) :
    (drain s [.prime k v1, .prime k v2, .load (.one k)]).2.1 =
      [(.one k, Reply.one (some v2))] := by
  simp [drain, muxOp, missKeys, Cache.getKeyVals, Cache.insert, Cache.get,
    LoadRequest.keys, LoadRequest.sendResponse]

/-- Claim C6.  `Prime`, `PrimeMany`, `Clear` and `ClearMany` are applied to
the cache by `mux_op` at the moment they are dequeued, and draining such an
operation first is the same as continuing the drain from the mutated cache —
so a mutation dequeued before a `Load` in the same frame is already in force
for that `Load`'s cache lookup. -/
theorem cache_mutations_immediate_in_order {K V : Type} [DecidableEq K]
    (s : WorkerState K V) (k : K) (v : V) (keyVals : List (K × V))
    (keys : List K) (ops : List (LoaderOp K V)) :
    muxOp s (.prime k v) = ({ s with cache := s.cache.insert k v }, none) ∧
    muxOp s (.primeMany keyVals) =
      ({ s with cache := s.cache.insertMany keyVals }, none) ∧
    muxOp s (.clear k) = ({ s with cache := s.cache.remove [k] }, none) ∧
    muxOp s (.clearMany keys) = ({ s with cache := s.cache.remove keys }, none) ∧
    drain s (.prime k v :: ops) =
      drain { s with cache := s.cache.insert k v } ops ∧
    drain s (.primeMany keyVals :: ops) =
      drain { s with cache := s.cache.insertMany keyVals } ops ∧
    drain s (.clear k :: ops) =
      drain { s with cache := s.cache.remove [k] } ops ∧
    drain s (.clearMany keys :: ops) =
      drain { s with cache := s.cache.remove keys } ops := by
  refine ⟨rfl, rfl, rfl, rfl, rfl, rfl, rfl, rfl⟩

/-- Claim C4.  A `Load` request all of whose keys are populated in the cache
at the moment it is drained is answered by `mux_op` immediately with the
cached values, and the worker state is unchanged: the request is not appended
to `pending_request` and never waits for the batch function. -/
theorem full_cache_hit_fast_path {K V : Type} [DecidableEq K]
    (s : WorkerState K V) (request : LoadRequest K)
    (h : ∀ k ∈ request.keys, (s.cache k).isSome) :
    muxOp s (.load request) =
      (s, some (request, request.sendResponse (s.cache.get request.keys))) := by
  have hm : missKeys s.cache request = [] := (missKeys_eq_nil_iff _ _).2 h
  rw [muxOp_load_hit s request (by rw [hm]; rfl)]
  have hv : (s.cache.getKeyVals request.keys).map (fun kv => kv.2) =
      s.cache.get request.keys := by
    simp [Cache.getKeyVals, Cache.get, List.map_map, Function.comp]
  rw [hv]

/-- A worker state over `ℕ` whose cache holds the single pair `(1, 10)`. -/
def natPrimedState : WorkerState Nat Nat :=
  { cache := Cache.empty.insert 1 10, keysToLoad := [], pendingRequests := [] }

/-- Witness for claim C4 at a concrete input: in a cache holding key `1`, the
request `load(1)` is a full hit and `mux_op` answers it immediately. -/
theorem full_cache_hit_fast_path_witness :
    (∀ k ∈ (LoadRequest.one 1).keys, ((natPrimedState.cache) k).isSome) ∧
    muxOp natPrimedState (.load (.one 1)) =
      (natPrimedState, some (.one 1,
        (LoadRequest.one 1).sendResponse
          (natPrimedState.cache.get (LoadRequest.one 1).keys))) :=
  ⟨by decide, full_cache_hit_fast_path natPrimedState (.one 1) (by decide)⟩

/-- Claim C3.  In every frame the batch function is invoked at most once, it
is invoked exactly when `pending_request` is non-empty after the drain, and —
when the frame starts with `pending_request` empty, as every frame does — an
invocation implies some `Load` drained in this frame had at least one cache
miss at the moment it was drained. -/
theorem batch_at_most_once_only_on_miss {K V : Type} [LinearOrder K]
    (F : List K → List (K × V)) (s : WorkerState K V) (ops : List (LoaderOp K V))
    (h : s.pendingRequests = []) :
    (runFrame F s ops).batchCalls.length ≤ 1 ∧
    ((runFrame F s ops).batchCalls ≠ [] ↔ (drain s ops).1.pendingRequests ≠ []) ∧
    ((runFrame F s ops).batchCalls ≠ [] →
      ∃ e ∈ (runFrame F s ops).deferred, e.2 ≠ []) := by
  by_cases hp : (drain s ops).1.pendingRequests.isEmpty = true
  · have hnil : (drain s ops).1.pendingRequests = [] := List.isEmpty_iff.1 hp
    refine ⟨?_, ?_, ?_⟩ <;> simp [runFrame, hp, hnil]
  · have hne : (drain s ops).1.pendingRequests ≠ [] :=
      fun hnil => hp (by rw [hnil]; rfl)
    refine ⟨?_, ?_, ?_⟩
    · simp [runFrame, hp]
    · simp [runFrame, hp, hne]
    · intro _
      have hpe := drain_pending_eq ops s
      rw [h, List.nil_append] at hpe
      have hl : (drain s ops).2.2 ≠ [] := by
        intro hnil
        exact hne (by rw [hpe, hnil]; rfl)
      obtain ⟨e, he⟩ := List.exists_mem_of_ne_nil _ hl
      refine ⟨e, ?_, drain_deferred_miss ops s e he⟩
      simpa [runFrame, hp] using he

/-- Witness for claim C3 at a concrete input: a frame draining `load(5)` from
the initial state invokes the batch function once, and the deferred trace
shows the miss that caused it. -/
theorem batch_at_most_once_only_on_miss_witness :
    natInitState.pendingRequests = [] ∧
    ((runFrame natCopyBatch natInitState [.load (.one 5)]).batchCalls.length ≤ 1 ∧
     ((runFrame natCopyBatch natInitState [.load (.one 5)]).batchCalls ≠ [] ↔
       (drain natInitState [.load (.one 5)]).1.pendingRequests ≠ []) ∧
     ((runFrame natCopyBatch natInitState [.load (.one 5)]).batchCalls ≠ [] →
       ∃ e ∈ (runFrame natCopyBatch natInitState [.load (.one 5)]).deferred,
         e.2 ≠ [])) :=
  ⟨rfl, batch_at_most_once_only_on_miss natCopyBatch natInitState [.load (.one 5)] rfl⟩

/-- Claim C5.  In phase 3, a pending `Many(keys)` request is answered with
the vector `keys.map c2`, where `c2` is the cache after the batch function's
results were inserted: the reply has the same length as `keys`, position `i`
holds the lookup of `keys[i]`, and a position whose key is absent from `c2`
(because the batch function did not populate it) holds `none`. -/
theorem pending_many_reply_parallel_to_keys {K V : Type} [LinearOrder K]
    (F : List K → List (K × V)) (s : WorkerState K V) (keys : List K)
    (c2 : Cache K V)
    (hc : c2 = Cache.insertMany s.cache (F (batchSlice s.keysToLoad)))
    (h : LoadRequest.many keys ∈ s.pendingRequests) :
    (LoadRequest.many keys, Reply.many (keys.map c2)) ∈ (executeLoad F s).2.2 ∧
    (keys.map c2).length = keys.length ∧
    (∀ i : Nat, (keys.map c2)[i]? = (keys[i]?).map c2) ∧
    (∀ (i : Nat) (k2 : K), keys[i]? = some k2 → c2 k2 = none →
      (keys.map c2)[i]? = some none) := by
  subst hc
  refine ⟨?_, by simp, ?_, ?_⟩
  · have hmem := List.mem_map_of_mem
      (fun r => (r, LoadRequest.sendResponse r
        (Cache.get (Cache.insertMany s.cache (F (batchSlice s.keysToLoad)))
          r.keys))) h
    simpa [executeLoad, LoadRequest.sendResponse, Cache.get,
      LoadRequest.keys] using hmem
  · intro i
    simp [List.getElem?_map]
  · intro i k2 hk hc2
    simp [List.getElem?_map, hk, hc2]

/-- Witness for claim C5 at a concrete input: a mid-frame state whose pending
list holds `Many([1, 2])` replies with the two post-batch lookups. -/
theorem pending_many_reply_parallel_to_keys_witness :
    (LoadRequest.many [1, 2],
      Reply.many ([1, 2].map (Cache.insertMany (Cache.empty : Cache Nat Nat)
        (natCopyBatch (batchSlice [1, 2]))))) ∈
      (executeLoad natCopyBatch
        ⟨Cache.empty, [1, 2], [.many [1, 2]]⟩).2.2 :=
  (pending_many_reply_parallel_to_keys natCopyBatch
    ⟨Cache.empty, [1, 2], [.many [1, 2]]⟩ [1, 2] _ rfl (by decide)).1

/-- Claim C7.  In phase 3, every `(key, value)` pair returned by the batch
function — whether or not its key was in the requested slice — is inserted
into the cache (its key is populated afterwards, and with the pair's value
when the returned keys are pairwise distinct), and every pending reply of the
frame is computed from that post-insertion cache. -/
theorem batch_results_cached_before_replies {K V : Type} [LinearOrder K]
    (F : List K → List (K × V)) (s : WorkerState K V) (c2 : Cache K V)
    (hc : c2 = Cache.insertMany s.cache (F (batchSlice s.keysToLoad))) :
    (executeLoad F s).1.cache = c2 ∧
    (∀ kv ∈ F (batchSlice s.keysToLoad), (c2 kv.1).isSome) ∧
    (((F (batchSlice s.keysToLoad)).map Prod.fst).Nodup →
      ∀ kv ∈ F (batchSlice s.keysToLoad), c2 kv.1 = some kv.2) ∧
    (executeLoad F s).2.2 =
      s.pendingRequests.map (fun r => (r, r.sendResponse (c2.get r.keys))) := by
  subst hc
  refine ⟨rfl, ?_, ?_, rfl⟩
  · intro kv hkv
    exact insertMany_isSome_of_mem _ s.cache kv hkv
  · intro hnd kv hkv
    exact insertMany_apply_of_nodup_mem _ s.cache kv hnd hkv

/-- Witness for claim C7 at a concrete input: from `keys_to_load = [2, 1, 2]`
the batch slice is `[1, 2]`, the concrete batch function returns
`[(1, 1), (2, 2)]`, and key `1` is populated in the post-batch cache. -/
theorem batch_results_cached_before_replies_witness :
    ((Cache.insertMany (Cache.empty : Cache Nat Nat)
        (natCopyBatch (batchSlice [2, 1, 2]))) 1).isSome = true :=
  (batch_results_cached_before_replies natCopyBatch
    ⟨Cache.empty, [2, 1, 2], []⟩ _ rfl).2.1 (1, 1) (by decide)

end Dataload
